import Mathlib

/-!
Shallow embedding of the wirestrike rail-shooter (src/main.py) over exact
rationals, together with theorems checking the natural-language specification
against the code.  Python floats are modelled as `ℚ`; the random draws made by
the source (spawn positions, spawn speeds, particle velocities) are modelled as
explicit inputs supplied to each frame.
-/

namespace Wirestrike

/-- Screen width constant from src/main.py. -/
def WIDTH : ℚ := 800

/-- Screen height constant from src/main.py. -/
def HEIGHT : ℚ := 600

/-- Field-of-view constant from src/main.py. -/
def FOV : ℚ := 400

/-- World scrolling speed: the local variable `world_speed` of `main`, fixed 30. -/
def world_speed : ℚ := 30

/-- Python `int()` conversion: truncation toward zero. -/
def pyInt (q : ℚ) : ℤ := if 0 ≤ q then ⌊q⌋ else ⌈q⌉

/-- Embedding of `project` from src/main.py: 3D point to optional 2D screen point. -/
def project (x y z : ℚ) : Option (ℤ × ℤ) :=
  if z < 1/10 then none
  else
    let factor : ℚ := FOV / z
    let px : ℚ := WIDTH / 2 + x * factor
    let py : ℚ := HEIGHT / 2 - y * factor
    some (pyInt px, pyInt py)

/-- Pressed-key set: the keys `Player.update` reads. -/
structure Keys where
  left : Bool
  a : Bool
  right : Bool
  d : Bool
  up : Bool
  w : Bool
  down : Bool
  s : Bool
deriving DecidableEq

/-- Player state, fields as in `Player.__init__`. -/
structure Player where
  x : ℚ
  y : ℚ
  z : ℚ
  vx : ℚ
  vy : ℚ
  speed : ℚ
  bank_angle : ℚ
  cooldown : ℚ
  hp : ℤ
deriving DecidableEq

/-- Initial player of `Player.__init__`. -/
def Player.init : Player :=
  { x := 0, y := 0, z := 10, vx := 0, vy := 0, speed := 15
    bank_angle := 0, cooldown := 0, hp := 100 }

/-- Embedding of `Player.update`. -/
def Player.update (p : Player) (dt : ℚ) (keys : Keys) : Player :=
  let vx : ℚ :=
    if keys.left || keys.a then -p.speed
    else if keys.right || keys.d then p.speed
    else p.vx * (4/5)
  let vy : ℚ :=
    if keys.up || keys.w then p.speed
    else if keys.down || keys.s then -p.speed
    else p.vy * (4/5)
  let x : ℚ := max (-15) (min 15 (p.x + vx * dt))
  let y : ℚ := max (-8) (min 8 (p.y + vy * dt))
  let target_bank : ℚ := -vx * (1/20)
  let bank : ℚ := p.bank_angle + (target_bank - p.bank_angle) * 10 * dt
  let cd : ℚ := if 0 < p.cooldown then p.cooldown - dt else p.cooldown
  { p with x := x, y := y, vx := vx, vy := vy, bank_angle := bank, cooldown := cd }

/-- Laser state, fields as in `Laser.__init__`. -/
structure Laser where
  x : ℚ
  y : ℚ
  z : ℚ
  speed : ℚ
  active : Bool
deriving DecidableEq

/-- Construction of `Laser(x, y, z)`. -/
def Laser.init (x y z : ℚ) : Laser :=
  { x := x, y := y, z := z, speed := 100, active := true }

/-- Embedding of `Laser.update`. -/
def Laser.update (l : Laser) (dt : ℚ) : Laser :=
  let z : ℚ := l.z + l.speed * dt
  { l with z := z, active := if 150 < z then false else l.active }

/-- Enemy state, fields as in `Enemy.__init__`. -/
structure Enemy where
  x : ℚ
  y : ℚ
  z : ℚ
  speed : ℚ
  active : Bool
  radius : ℚ
deriving DecidableEq

/-- Construction of `Enemy()`: `x`, `y` and `speed` stand for the uniform random
draws made by `Enemy.__init__`; `z` starts at 150, radius is 1.5. -/
def Enemy.spawn (x y speed : ℚ) : Enemy :=
  { x := x, y := y, z := 150, speed := speed, active := true, radius := 3/2 }

/-- Embedding of `Enemy.update`. -/
def Enemy.update (e : Enemy) (dt : ℚ) : Enemy :=
  let z : ℚ := e.z - e.speed * dt
  { e with z := z, active := if z < 0 then false else e.active }

/-- Obstacle state, fields as in `Obstacle.__init__`. -/
structure Obstacle where
  x : ℚ
  y : ℚ
  z : ℚ
  speed : ℚ
  active : Bool
  radius : ℚ
deriving DecidableEq

/-- Construction of `Obstacle()`: `x` stands for the uniform random draw;
`y` is fixed -8, `z` starts at 150, speed 30, radius 2. -/
def Obstacle.spawn (x : ℚ) : Obstacle :=
  { x := x, y := -8, z := 150, speed := 30, active := true, radius := 2 }

/-- Embedding of `Obstacle.update`. -/
def Obstacle.update (o : Obstacle) (dt : ℚ) : Obstacle :=
  let z : ℚ := o.z - o.speed * dt
  { o with z := z, active := if z < 0 then false else o.active }

/-- Particle colors used by the source. -/
inductive PColor
  | red
  | yellow
  | cyan
deriving DecidableEq

/-- Particle state, fields as in `Particle.__init__`. -/
structure Particle where
  x : ℚ
  y : ℚ
  z : ℚ
  vx : ℚ
  vy : ℚ
  vz : ℚ
  life : ℚ
  color : PColor
deriving DecidableEq

/-- Construction of `Particle(x, y, z, color)`: the velocity components stand for
the three uniform random draws made by `Particle.__init__`; life starts at 1. -/
def Particle.init (x y z vx vy vz : ℚ) (c : PColor) : Particle :=
  { x := x, y := y, z := z, vx := vx, vy := vy, vz := vz, life := 1, color := c }

/-- Embedding of `Particle.update`. -/
def Particle.update (pt : Particle) (dt : ℚ) : Particle :=
  { pt with
    x := pt.x + pt.vx * dt
    y := pt.y + pt.vy * dt
    z := pt.z + pt.vz * dt
    life := pt.life - dt }

/-- Squared Euclidean distance between two 3D points (the source compares
`math.sqrt` of this against a bound; we compare against the squared bound). -/
def dist2 (x1 y1 z1 x2 y2 z2 : ℚ) : ℚ :=
  (x1 - x2) * (x1 - x2) + (y1 - y2) * (y1 - y2) + (z1 - z2) * (z1 - z2)

/-- Laser-enemy proximity test of collision pass A:
distance strictly below `enemy.radius + 1.0`, expressed on squares. -/
def laserHits (l : Laser) (e : Enemy) : Bool :=
  decide (dist2 l.x l.y l.z e.x e.y e.z < (e.radius + 1) * (e.radius + 1))

/-- A player bounds invariant used by claim C4. -/
def inBounds (p : Player) : Prop :=
  -15 ≤ p.x ∧ p.x ≤ 15 ∧ -8 ≤ p.y ∧ p.y ≤ 8

/-- One step of the fold describing a sequence of player updates. -/
def stepP (p : Player) (ik : ℚ × Keys) : Player :=
  p.update ik.1 ik.2

/-- Laser with its active flag turned off. -/
def Laser.deact (l : Laser) : Laser := { l with active := false }

/-- Enemy with its active flag turned off. -/
def Enemy.deact (e : Enemy) : Enemy := { e with active := false }

/-- Obstacle with its active flag turned off. -/
def Obstacle.deact (o : Obstacle) : Obstacle := { o with active := false }

/-- A burst of `n` particles at one position, velocities drawn from the supply
`pv` at consecutive indices starting at `k` (modelling the random draws of the
`Particle` constructor in the explosion loops of `main`). -/
def burst (pv : ℕ → ℚ × ℚ × ℚ) (k n : ℕ) (x y z : ℚ) (c : PColor) : List Particle :=
  (List.range n).map fun i =>
    Particle.init x y z (pv (k + i)).1 (pv (k + i)).2.1 (pv (k + i)).2.2 c

/-- Result of processing one laser against the enemy list in collision pass A. -/
structure AOut where
  laser : Laser
  enemies : List Enemy
  score : ℤ
  particles : List Particle
  pk : ℕ
deriving DecidableEq

/-- Inner loop of collision pass A of `main`: one laser walks the enemy list;
a pair collides when both are active and within `enemy.radius + 1.0`; a hit
deactivates both, awards 100 score and appends 15 red and 10 yellow particles
at the enemy position. -/
def innerA (pv : ℕ → ℚ × ℚ × ℚ) (l : Laser) (es : List Enemy)
    (score : ℤ) (parts : List Particle) (pk : ℕ) : AOut :=
  match es with
  | [] => ⟨l, [], score, parts, pk⟩
  | e :: rest =>
    if e.active && l.active && laserHits l e then
      let out := innerA pv l.deact rest (score + 100)
        (parts ++ burst pv pk 15 e.x e.y e.z PColor.red
               ++ burst pv (pk + 15) 10 e.x e.y e.z PColor.yellow) (pk + 25)
      { out with enemies := e.deact :: out.enemies }
    else
      let out := innerA pv l rest score parts pk
      { out with enemies := e :: out.enemies }

/-- Result of collision pass A. -/
structure PassOut where
  lasers : List Laser
  enemies : List Enemy
  score : ℤ
  particles : List Particle
  pk : ℕ
deriving DecidableEq

/-- Collision pass A of `main` (lasers against enemies), outer loop over lasers. -/
def passA (pv : ℕ → ℚ × ℚ × ℚ) (ls : List Laser) (es : List Enemy)
    (score : ℤ) (parts : List Particle) (pk : ℕ) : PassOut :=
  match ls with
  | [] => ⟨[], es, score, parts, pk⟩
  | l :: rest =>
    let a := innerA pv l es score parts pk
    let out := passA pv rest a.enemies a.score a.particles a.pk
    { out with lasers := a.laser :: out.lasers }

/-- Player-enemy proximity test of collision pass B:
distance strictly below `entity.radius + 1.5`, expressed on squares. -/
def playerHitsE (pl : Player) (e : Enemy) : Bool :=
  decide (dist2 pl.x pl.y pl.z e.x e.y e.z < (e.radius + 3/2) * (e.radius + 3/2))

/-- Player-obstacle proximity test of collision pass B. -/
def playerHitsO (pl : Player) (o : Obstacle) : Bool :=
  decide (dist2 pl.x pl.y pl.z o.x o.y o.z < (o.radius + 3/2) * (o.radius + 3/2))

/-- An enemy that collides with the player in pass B: active and within range. -/
def eCollides (pl : Player) (e : Enemy) : Bool :=
  e.active && playerHitsE pl e

/-- An obstacle that collides with the player in pass B: active and within range. -/
def oCollides (pl : Player) (o : Obstacle) : Bool :=
  o.active && playerHitsO pl o

/-- Result of the enemy half of collision pass B. -/
structure BOutE where
  enemies : List Enemy
  hp : ℤ
  gameOver : Bool
  particles : List Particle
  pk : ℕ
deriving DecidableEq

/-- Result of the obstacle half of collision pass B. -/
structure BOutO where
  obstacles : List Obstacle
  hp : ℤ
  gameOver : Bool
  particles : List Particle
  pk : ℕ
deriving DecidableEq

/-- Enemy half of collision pass B of `main`: every active entity within
`entity.radius + 1.5` of the player is deactivated, costs 25 health, spawns 20
cyan particles at the player, and the game ends when health drops to 0 or below. -/
def passBE (pv : ℕ → ℚ × ℚ × ℚ) (pl : Player) (es : List Enemy)
    (hp : ℤ) (go : Bool) (parts : List Particle) (pk : ℕ) : BOutE :=
  match es with
  | [] => ⟨[], hp, go, parts, pk⟩
  | e :: rest =>
    if eCollides pl e then
      let out := passBE pv pl rest (hp - 25) (go || decide (hp - 25 ≤ 0))
        (parts ++ burst pv pk 20 pl.x pl.y pl.z PColor.cyan) (pk + 20)
      { out with enemies := e.deact :: out.enemies }
    else
      let out := passBE pv pl rest hp go parts pk
      { out with enemies := e :: out.enemies }

/-- Obstacle half of collision pass B of `main` (the source iterates
`enemies + obstacles`, so obstacles are processed after enemies). -/
def passBO (pv : ℕ → ℚ × ℚ × ℚ) (pl : Player) (os : List Obstacle)
    (hp : ℤ) (go : Bool) (parts : List Particle) (pk : ℕ) : BOutO :=
  match os with
  | [] => ⟨[], hp, go, parts, pk⟩
  | o :: rest =>
    if oCollides pl o then
      let out := passBO pv pl rest (hp - 25) (go || decide (hp - 25 ≤ 0))
        (parts ++ burst pv pk 20 pl.x pl.y pl.z PColor.cyan) (pk + 20)
      { out with obstacles := o.deact :: out.obstacles }
    else
      let out := passBO pv pl rest hp go parts pk
      { out with obstacles := o :: out.obstacles }

/-- Events the frame loop of `main` reacts to (we keep only the key-down events
that touch simulation state; any other event is `other`). -/
inductive GEvent
  | space
  | rkey
  | other
deriving DecidableEq

/-- The mutable simulation state owned by the loop in `main`. -/
structure GameState where
  player : Player
  lasers : List Laser
  enemies : List Enemy
  obstacles : List Obstacle
  particles : List Particle
  score : ℤ
  scroll_offset : ℚ
  game_over : Bool
deriving DecidableEq

/-- State at game start, as set up at the top of `main`. -/
def initState : GameState :=
  { player := Player.init, lasers := [], enemies := [], obstacles := []
    particles := [], score := 0, scroll_offset := 0, game_over := false }

/-- Event handling of `main`: SPACE fires a laser pair when the game is running
and the cooldown has elapsed; R restarts when the game is over. -/
def procEvent (s : GameState) (ev : GEvent) : GameState :=
  match ev with
  | GEvent.space =>
    if s.game_over = false ∧ s.player.cooldown ≤ 0 then
      { s with
        lasers := s.lasers ++
          [Laser.init (s.player.x - 3/2) s.player.y s.player.z,
           Laser.init (s.player.x + 3/2) s.player.y s.player.z]
        player := { s.player with cooldown := 1/5 } }
    else s
  | GEvent.rkey =>
    if s.game_over = true then
      { player := Player.init, lasers := [], enemies := [], obstacles := []
        particles := [], score := 0, scroll_offset := s.scroll_offset
        game_over := false }
    else s
  | GEvent.other => s

/-- All environment data one frame consumes: elapsed time, pending events, the
pressed-key set, the outcome of the two spawn rolls (with the uniform draws for
the spawned entity when a roll succeeds), and the particle-velocity draws. -/
structure FrameInput where
  dt : ℚ
  events : List GEvent
  keys : Keys
  enemySpawn : Option (ℚ × ℚ × ℚ)
  obstacleSpawn : Option ℚ
  pv : ℕ → ℚ × ℚ × ℚ

/-- The update section of a frame of `main` (runs only when the game is not
over): player update, grid scroll, spawning, entity updates, compaction of
inactive entities, collision pass A then collision pass B. -/
def simStep (s : GameState) (inp : FrameInput) : GameState :=
  let player := s.player.update inp.dt inp.keys
  let so0 := s.scroll_offset + world_speed * inp.dt
  let so := if 10 < so0 then so0 - 10 else so0
  let enemies0 :=
    match inp.enemySpawn with
    | some (x, y, sp) => s.enemies ++ [Enemy.spawn x y sp]
    | none => s.enemies
  let obstacles0 :=
    match inp.obstacleSpawn with
    | some x => s.obstacles ++ [Obstacle.spawn x]
    | none => s.obstacles
  let lasers1 := (s.lasers.map fun l => l.update inp.dt).filter fun l => l.active
  let enemies1 := (enemies0.map fun e => e.update inp.dt).filter fun e => e.active
  let obstacles1 := (obstacles0.map fun o => o.update inp.dt).filter fun o => o.active
  let particles1 :=
    (s.particles.map fun pt => pt.update inp.dt).filter fun pt => decide (0 < pt.life)
  let a := passA inp.pv lasers1 enemies1 s.score particles1 0
  let bE := passBE inp.pv player a.enemies player.hp s.game_over a.particles a.pk
  let bO := passBO inp.pv player obstacles1 bE.hp bE.gameOver bE.particles bE.pk
  { player := { player with hp := bO.hp }
    lasers := a.lasers
    enemies := bE.enemies
    obstacles := bO.obstacles
    particles := bO.particles
    score := a.score
    scroll_offset := so
    game_over := bO.gameOver }

/-- One full frame of the loop in `main`: drain events, then run the update
section unless the game is over (drawing touches no simulation state). -/
def frame (s : GameState) (inp : FrameInput) : GameState :=
  let s1 := inp.events.foldl procEvent s
  if s1.game_over then s1 else simStep s1 inp

/-- A frame input the real environment can produce: non-negative elapsed time
and spawn draws within the uniform ranges used by the source constructors. -/
def ValidInput (inp : FrameInput) : Prop :=
  0 ≤ inp.dt ∧
  (match inp.enemySpawn with
   | some (x, y, sp) =>
     -15 ≤ x ∧ x ≤ 15 ∧ -5 ≤ y ∧ y ≤ 10 ∧ 20 ≤ sp ∧ sp ≤ 40
   | none => True) ∧
  (match inp.obstacleSpawn with
   | some x => -20 ≤ x ∧ x ≤ 20
   | none => True)

/-- States reachable from game start through frames with valid inputs. -/
inductive Reachable : GameState → Prop
  | start : Reachable initState
  | step (s : GameState) (inp : FrameInput) :
      Reachable s → ValidInput inp → Reachable (frame s inp)

/-- Running a list of frames from a state. -/
def runFrames (s : GameState) (inps : List FrameInput) : GameState :=
  inps.foldl frame s

/-- The all-zero particle-velocity supply, used in concrete scenarios. -/
def pv0 : ℕ → ℚ × ℚ × ℚ := fun _ => (0, 0, 0)

/-- The no-key-pressed input state. -/
def noKeys : Keys :=
  { left := false, a := false, right := false, d := false
    up := false, w := false, down := false, s := false }

/-- A frame input that spawns one enemy dead ahead with speed 35, elapsing no time. -/
def spawnFrame : FrameInput :=
  { dt := 0, events := [], keys := noKeys
    enemySpawn := some (0, 0, 35), obstacleSpawn := none, pv := pv0 }

/-- A frame input elapsing 4 seconds with no events and no spawns. -/
def crashFrame : FrameInput :=
  { dt := 4, events := [], keys := noKeys
    enemySpawn := none, obstacleSpawn := none, pv := pv0 }

/-- Six-frame schedule: five zero-time frames each spawning an enemy at
lateral position (0,0) with speed 35, then one 4-second frame that brings all
five enemies to the player's depth simultaneously. -/
def c6Run : GameState :=
  runFrames initState [spawnFrame, spawnFrame, spawnFrame, spawnFrame, spawnFrame, crashFrame]

/-- The scenario laser of C3: fired at the enemy position `(0, 0, 10)`. -/
def scenLaser : Laser := Laser.init 0 0 10

/-- The scenario enemy of C3: at `(0, 0, 10)` with radius 1.5 (speed 30, say). -/
def scenEnemy : Enemy :=
  { x := 0, y := 0, z := 10, speed := 30, active := true, radius := 3/2 }

/-- First laser of the C8 ordering counterexample, at `(0, 0, 10)`: in range of
`ceE1` only. -/
def ceL1 : Laser := Laser.init 0 0 10

/-- Second laser of the C8 ordering counterexample, at `(0, 0, 12)`: in range of
both `ceE1` and `ceE2`. -/
def ceL2 : Laser := Laser.init 0 0 12

/-- First enemy of the C8 ordering counterexample, at `(0, 0, 10)`. -/
def ceE1 : Enemy :=
  { x := 0, y := 0, z := 10, speed := 30, active := true, radius := 3/2 }

/-- Second enemy of the C8 ordering counterexample, at `(0, 0, 14)`. -/
def ceE2 : Enemy :=
  { x := 0, y := 0, z := 14, speed := 30, active := true, radius := 3/2 }

/-- A game-over state used by concrete witnesses. -/
def goState : GameState := { initState with game_over := true }

/-- A frame input with no events, no elapsed time and no spawns. -/
def idleFrame : FrameInput :=
  { dt := 0, events := [], keys := noKeys
    enemySpawn := none, obstacleSpawn := none, pv := pv0 }

/-- Pointwise weakening on enemies: the collision passes either keep an enemy
or merely clear its active flag. -/
def weakE (e1 e : Enemy) : Prop := e1 = e ∨ e1 = e.deact

lemma Player.update_inBounds (p : Player) (dt : ℚ) (keys : Keys) :
    inBounds (p.update dt keys) := by
  unfold Player.update inBounds
  refine ⟨le_max_left _ _, max_le (by norm_num) (min_le_left _ _),
    le_max_left _ _, max_le (by norm_num) (min_le_left _ _)⟩

lemma foldl_stepP_inBounds (seq : List (ℚ × Keys)) :
    ∀ p : Player, inBounds p → inBounds (seq.foldl stepP p) := by
  induction seq with
  | nil => intro p hp; exact hp
  | cons i is ih =>
    intro p _
    exact ih (stepP p i) (Player.update_inBounds p i.1 i.2)

/-- C4: after every call to `Player.update` — and hence after any finite sequence of
updates from the initial player state, for any `dt` and any input state — `player.x`
lies in `[-15, 15]` and `player.y` lies in `[-8, 8]`. -/
theorem c4_player_bounds :
    (∀ (p : Player) (dt : ℚ) (keys : Keys), inBounds (p.update dt keys)) ∧
    (∀ seq : List (ℚ × Keys), inBounds (seq.foldl stepP Player.init)) := by
  refine ⟨Player.update_inBounds, fun seq => ?_⟩
  refine foldl_stepP_inBounds seq Player.init ?_
  unfold inBounds Player.init
  norm_num

/-- C1: `project` returns absent exactly when `z < 0.1`; otherwise it returns the
pair `(WIDTH/2 + x*(FOV/z), HEIGHT/2 - y*(FOV/z))`, each coordinate truncated
toward zero. -/
theorem c1_project (x y z : ℚ) :
    (project x y z = none ↔ z < 1/10) ∧
    (1/10 ≤ z →
      project x y z =
        some (pyInt (WIDTH / 2 + x * (FOV / z)), pyInt (HEIGHT / 2 - y * (FOV / z)))) := by
  constructor
  · unfold project
    by_cases h : z < 1/10
    · simp [h]
    · simp [h]
  · intro hz
    have h : ¬ z < 1/10 := not_lt.mpr hz
    unfold project
    rw [if_neg h]

/-- Witness for C1 at the concrete input `(5, 7, 1)`. -/
theorem c1_project_witness : project 5 7 1 = some (2400, -2500) := by
  have h := (c1_project 5 7 1).2 (by norm_num)
  rw [h]
  have h1 : WIDTH / 2 + 5 * (FOV / 1) = (2400 : ℚ) := by
    unfold WIDTH FOV; norm_num
  have h2 : HEIGHT / 2 - 7 * (FOV / 1) = (-2500 : ℚ) := by
    unfold HEIGHT FOV; norm_num
  rw [h1, h2]
  unfold pyInt
  norm_num
  have hc : ((-2500 : ℤ) : ℚ) = (-2500 : ℚ) := by norm_num
  rw [← hc, Int.ceil_intCast]

/-- C5: for every `dt ≥ 0`, an entity's active flag becomes false in `update`
exactly when its depth crosses its threshold and never before: a laser is
deactivated exactly when its `z` exceeds 150 after integration, an enemy or
obstacle exactly when its `z` drops below 0 after integration; at depth equal
to the threshold the entity remains active. -/
theorem c5_entity_expiry (dt : ℚ) (_hdt : 0 ≤ dt) :
    (∀ l : Laser, l.active = true →
      (l.update dt).z = l.z + l.speed * dt ∧
      ((l.update dt).active = false ↔ 150 < l.z + l.speed * dt) ∧
      ((l.update dt).z = 150 → (l.update dt).active = true)) ∧
    (∀ e : Enemy, e.active = true →
      (e.update dt).z = e.z - e.speed * dt ∧
      ((e.update dt).active = false ↔ e.z - e.speed * dt < 0) ∧
      ((e.update dt).z = 0 → (e.update dt).active = true)) ∧
    (∀ o : Obstacle, o.active = true →
      (o.update dt).z = o.z - o.speed * dt ∧
      ((o.update dt).active = false ↔ o.z - o.speed * dt < 0) ∧
      ((o.update dt).z = 0 → (o.update dt).active = true)) := by
  refine ⟨fun l hl => ?_, fun e he => ?_, fun o ho => ?_⟩
  · unfold Laser.update
    refine ⟨rfl, ?_, ?_⟩
    · by_cases h : 150 < l.z + l.speed * dt
      · simp [h]
      · simp [h, hl]
    · intro hz
      simp only at hz
      rw [hz]
      simp [hl]
  · unfold Enemy.update
    refine ⟨rfl, ?_, ?_⟩
    · by_cases h : e.z - e.speed * dt < 0
      · simp [h]
      · simp [h, he]
    · intro hz
      simp only at hz
      rw [hz]
      simp [he]
  · unfold Obstacle.update
    refine ⟨rfl, ?_, ?_⟩
    · by_cases h : o.z - o.speed * dt < 0
      · simp [h]
      · simp [h, ho]
    · intro hz
      simp only at hz
      rw [hz]
      simp [ho]

/-- Witness for C5: a laser at depth 60 with speed 100 expires after one second
(depth 160 exceeds 150), checked by applying the theorem at `dt = 1`. -/
theorem c5_entity_expiry_witness :
    ((Laser.init 0 0 60).update 1).active = false := by
  have h := ((c5_entity_expiry 1 (by norm_num)).1 (Laser.init 0 0 60) rfl).2.1
  refine h.mpr ?_
  unfold Laser.init
  norm_num

lemma reachable_runFrames (inps : List FrameInput) :
    ∀ s : GameState, Reachable s → (∀ i ∈ inps, ValidInput i) →
      Reachable (runFrames s inps) := by
  induction inps with
  | nil => intro s hs _; exact hs
  | cons i is ih =>
    intro s hs hv
    have h1 : Reachable (frame s i) :=
      Reachable.step s i hs (hv i (List.mem_cons_self i is))
    exact ih (frame s i) h1 fun j hj => hv j (List.mem_cons_of_mem i hj)

lemma burst_length (pv : ℕ → ℚ × ℚ × ℚ) (k n : ℕ) (x y z : ℚ) (c : PColor) :
    (burst pv k n x y z c).length = n := by
  simp [burst]

lemma laserHits_deact_left (l : Laser) (e : Enemy) :
    laserHits l.deact e = laserHits l e := rfl

lemma laserHits_deact_right (l : Laser) (e : Enemy) :
    laserHits l (Enemy.deact e) = laserHits l e := rfl

lemma innerA_cons (pv : ℕ → ℚ × ℚ × ℚ) (l : Laser) (e : Enemy) (rest : List Enemy)
    (sc : ℤ) (ps : List Particle) (pk : ℕ) :
    innerA pv l (e :: rest) sc ps pk =
      if (e.active && l.active && laserHits l e) = true then
        let out := innerA pv l.deact rest (sc + 100)
          (ps ++ burst pv pk 15 e.x e.y e.z PColor.red
              ++ burst pv (pk + 15) 10 e.x e.y e.z PColor.yellow) (pk + 25)
        { out with enemies := e.deact :: out.enemies }
      else
        let out := innerA pv l rest sc ps pk
        { out with enemies := e :: out.enemies } := rfl

lemma innerA_inactive (pv : ℕ → ℚ × ℚ × ℚ) (l : Laser) (es : List Enemy)
    (sc : ℤ) (ps : List Particle) (pk : ℕ) (h : l.active = false) :
    innerA pv l es sc ps pk = ⟨l, es, sc, ps, pk⟩ := by
  induction es generalizing sc ps pk with
  | nil => rfl
  | cons e rest ih =>
    have hg : (e.active && l.active && laserHits l e) = false := by
      rw [h]; simp
    rw [innerA_cons, if_neg (by simp [hg]), ih sc ps pk]

lemma innerA_noTarget (pv : ℕ → ℚ × ℚ × ℚ) (l : Laser) (es : List Enemy)
    (sc : ℤ) (ps : List Particle) (pk : ℕ)
    (h : ∀ e ∈ es, (e.active && laserHits l e) = false) :
    innerA pv l es sc ps pk = ⟨l, es, sc, ps, pk⟩ := by
  induction es generalizing sc ps pk with
  | nil => rfl
  | cons e rest ih =>
    have he : (e.active && laserHits l e) = false := h e (List.mem_cons_self e rest)
    have hg : (e.active && l.active && laserHits l e) = false := by
      cases hea : e.active <;> cases hhit : laserHits l e <;> simp_all
    rw [innerA_cons, if_neg (by simp [hg]),
      ih sc ps pk (fun e2 h2 => h e2 (List.mem_cons_of_mem e h2))]

lemma innerA_firstHit (pv : ℕ → ℚ × ℚ × ℚ) (l : Laser) (es1 : List Enemy)
    (e0 : Enemy) (es2 : List Enemy) (sc : ℤ) (ps : List Particle) (pk : ℕ)
    (h0 : l.active = true)
    (h1 : ∀ e ∈ es1, (e.active && laserHits l e) = false)
    (h2 : (e0.active && laserHits l e0) = true) :
    innerA pv l (es1 ++ e0 :: es2) sc ps pk =
      ⟨l.deact, es1 ++ e0.deact :: es2, sc + 100,
       ps ++ burst pv pk 15 e0.x e0.y e0.z PColor.red
          ++ burst pv (pk + 15) 10 e0.x e0.y e0.z PColor.yellow, pk + 25⟩ := by
  induction es1 generalizing sc ps pk with
  | nil =>
    have hg : (e0.active && l.active && laserHits l e0) = true := by
      rw [h0]
      cases hea : e0.active <;> cases hhit : laserHits l e0 <;> simp_all
    rw [List.nil_append, innerA_cons, if_pos hg,
      innerA_inactive pv l.deact es2 _ _ _ rfl]
    rfl
  | cons e es1t ih =>
    have he : (e.active && laserHits l e) = false := h1 e (List.mem_cons_self e es1t)
    have hg : (e.active && l.active && laserHits l e) = false := by
      cases hea : e.active <;> cases hhit : laserHits l e <;> simp_all
    rw [List.cons_append, innerA_cons, if_neg (by simp [hg]),
      ih sc ps pk (fun e2 m2 => h1 e2 (List.mem_cons_of_mem e m2))]
    rfl

lemma innerA_score (pv : ℕ → ℚ × ℚ × ℚ) (l : Laser) (es : List Enemy)
    (sc : ℤ) (ps : List Particle) (pk : ℕ) :
    (innerA pv l es sc ps pk).score = sc ∨
    (innerA pv l es sc ps pk).score = sc + 100 := by
  induction es generalizing l sc ps pk with
  | nil => exact Or.inl rfl
  | cons e rest ih =>
    by_cases hg : (e.active && l.active && laserHits l e) = true
    · rw [innerA_cons, if_pos hg]
      rw [innerA_inactive pv l.deact rest _ _ _ rfl]
      exact Or.inr rfl
    · rw [innerA_cons, if_neg hg]
      exact ih l sc ps pk

lemma innerA_activeCount (pv : ℕ → ℚ × ℚ × ℚ) (l : Laser) (es : List Enemy)
    (sc : ℤ) (ps : List Particle) (pk : ℕ) :
    es.countP (fun e => e.active) ≤
      (innerA pv l es sc ps pk).enemies.countP (fun e => e.active) + 1 := by
  induction es generalizing l sc ps pk with
  | nil => simp
  | cons e rest ih =>
    by_cases hg : (e.active && l.active && laserHits l e) = true
    · have hea : e.active = true := by
        cases hea : e.active <;> simp_all
      rw [innerA_cons, if_pos hg, innerA_inactive pv l.deact rest _ _ _ rfl]
      simp only [List.countP_cons, hea, Enemy.deact]
      simp
    · rw [innerA_cons, if_neg hg]
      simp only [List.countP_cons]
      have := ih l sc ps pk
      omega

lemma innerA_laser_active (pv : ℕ → ℚ × ℚ × ℚ) (l : Laser) (es : List Enemy)
    (sc : ℤ) (ps : List Particle) (pk : ℕ) :
    (innerA pv l es sc ps pk).laser.active = true →
    (innerA pv l es sc ps pk).laser = l ∧
    ∀ e ∈ (innerA pv l es sc ps pk).enemies, (e.active && laserHits l e) = false := by
  induction es generalizing sc ps pk with
  | nil => exact fun _ => ⟨rfl, by intro e he; cases he⟩
  | cons e rest ih =>
    intro h
    by_cases hg : (e.active && l.active && laserHits l e) = true
    · exfalso
      rw [innerA_cons, if_pos hg, innerA_inactive pv l.deact rest _ _ _ rfl] at h
      exact Bool.false_ne_true h
    · rw [innerA_cons, if_neg hg] at h ⊢
      obtain ⟨hl, hrest⟩ := ih sc ps pk h
      have hla : l.active = true := by rw [← hl]; exact h
      refine ⟨hl, fun e2 m2 => ?_⟩
      rcases List.mem_cons.mp m2 with rfl | m2
      · cases hea : e2.active <;> cases hhit : laserHits l e2 <;> simp_all
      · exact hrest e2 m2

lemma innerA_weakE (pv : ℕ → ℚ × ℚ × ℚ) (l : Laser) (es : List Enemy)
    (sc : ℤ) (ps : List Particle) (pk : ℕ) :
    List.Forall₂ weakE (innerA pv l es sc ps pk).enemies es := by
  induction es generalizing l sc ps pk with
  | nil => exact List.Forall₂.nil
  | cons e rest ih =>
    by_cases hg : (e.active && l.active && laserHits l e) = true
    · rw [innerA_cons, if_pos hg, innerA_inactive pv l.deact rest _ _ _ rfl]
      exact List.Forall₂.cons (Or.inr rfl) (List.forall₂_same.mpr fun x _ => Or.inl rfl)
    · rw [innerA_cons, if_neg hg]
      exact List.Forall₂.cons (Or.inl rfl) (ih l sc ps pk)

lemma weakE_trans {a b c : Enemy} (h1 : weakE a b) (h2 : weakE b c) : weakE a c := by
  rcases h1 with rfl | rfl <;> rcases h2 with rfl | rfl
  · exact Or.inl rfl
  · exact Or.inr rfl
  · exact Or.inr rfl
  · exact Or.inr rfl

lemma forall₂_weakE_trans :
    ∀ {xs ys zs : List Enemy}, List.Forall₂ weakE xs ys → List.Forall₂ weakE ys zs →
      List.Forall₂ weakE xs zs := by
  intro xs ys zs h1 h2
  induction h1 generalizing zs with
  | nil => cases h2; exact List.Forall₂.nil
  | cons hxy _ ih =>
    cases h2 with
    | cons hyz h2t => exact List.Forall₂.cons (weakE_trans hxy hyz) (ih h2t)

lemma forall₂_weakE_mem {xs ys : List Enemy} (h : List.Forall₂ weakE xs ys) :
    ∀ x ∈ xs, ∃ y ∈ ys, weakE x y := by
  induction h with
  | nil => intro x hx; cases hx
  | cons hxy _ ih =>
    intro x hx
    rcases List.mem_cons.mp hx with rfl | hx
    · exact ⟨_, List.mem_cons_self _ _, hxy⟩
    · obtain ⟨y, hy, hw⟩ := ih x hx
      exact ⟨y, List.mem_cons_of_mem _ hy, hw⟩

lemma weakE_active {e1 e : Enemy} (h : weakE e1 e) (ha : e1.active = true) : e1 = e := by
  rcases h with rfl | rfl
  · rfl
  · exact absurd ha (by simp [Enemy.deact])

lemma weakE_laserHits {e1 e : Enemy} (l : Laser) (h : weakE e1 e) :
    laserHits l e1 = laserHits l e := by
  rcases h with rfl | rfl
  · rfl
  · rfl

lemma passA_nil (pv : ℕ → ℚ × ℚ × ℚ) (es : List Enemy) (sc : ℤ)
    (ps : List Particle) (pk : ℕ) :
    passA pv [] es sc ps pk = ⟨[], es, sc, ps, pk⟩ := rfl

lemma passA_cons (pv : ℕ → ℚ × ℚ × ℚ) (l : Laser) (rest : List Laser)
    (es : List Enemy) (sc : ℤ) (ps : List Particle) (pk : ℕ) :
    passA pv (l :: rest) es sc ps pk =
      let a := innerA pv l es sc ps pk
      let out := passA pv rest a.enemies a.score a.particles a.pk
      { out with lasers := a.laser :: out.lasers } := rfl

lemma passA_weakE (pv : ℕ → ℚ × ℚ × ℚ) (ls : List Laser) :
    ∀ (es : List Enemy) (sc : ℤ) (ps : List Particle) (pk : ℕ),
      List.Forall₂ weakE (passA pv ls es sc ps pk).enemies es := by
  induction ls with
  | nil =>
    intro es sc ps pk
    exact List.forall₂_same.mpr fun x _ => Or.inl rfl
  | cons l rest ih =>
    intro es sc ps pk
    simp only [passA_cons]
    exact forall₂_weakE_trans (ih _ _ _ _) (innerA_weakE pv l es sc ps pk)

lemma passA_noPair (pv : ℕ → ℚ × ℚ × ℚ) (ls : List Laser) :
    ∀ (es : List Enemy) (sc : ℤ) (ps : List Particle) (pk : ℕ),
      ∀ l1 ∈ (passA pv ls es sc ps pk).lasers, l1.active = true →
      ∀ e1 ∈ (passA pv ls es sc ps pk).enemies, e1.active = true →
      laserHits l1 e1 = false := by
  induction ls with
  | nil =>
    intro es sc ps pk l1 hl1
    simp only [passA_nil] at hl1
    cases hl1
  | cons l rest ih =>
    intro es sc ps pk l1 hl1 hact e1 he1 heact
    simp only [passA_cons] at hl1 he1
    rcases List.mem_cons.mp hl1 with rfl | hl1
    · obtain ⟨hlsr, hspec⟩ := innerA_laser_active pv l es sc ps pk hact
      have hweak := passA_weakE pv rest (innerA pv l es sc ps pk).enemies
        (innerA pv l es sc ps pk).score (innerA pv l es sc ps pk).particles
        (innerA pv l es sc ps pk).pk
      obtain ⟨e, hemem, hwe⟩ := forall₂_weakE_mem hweak e1 he1
      have he1e : e1 = e := weakE_active hwe heact
      subst he1e
      have hsp := hspec e1 hemem
      rw [hlsr]
      cases hea : e1.active <;> simp_all
    · exact ih _ _ _ _ l1 hl1 hact e1 he1 heact

lemma passA_score_ex (pv : ℕ → ℚ × ℚ × ℚ) (ls : List Laser) :
    ∀ (es : List Enemy) (sc : ℤ) (ps : List Particle) (pk : ℕ),
      ∃ n : ℕ, (passA pv ls es sc ps pk).score = sc + 100 * n := by
  induction ls with
  | nil =>
    intro es sc ps pk
    exact ⟨0, by simp [passA_nil]⟩
  | cons l rest ih =>
    intro es sc ps pk
    simp only [passA_cons]
    obtain ⟨m, hm⟩ := ih (innerA pv l es sc ps pk).enemies (innerA pv l es sc ps pk).score
      (innerA pv l es sc ps pk).particles (innerA pv l es sc ps pk).pk
    rcases innerA_score pv l es sc ps pk with h | h
    · exact ⟨m, by rw [hm, h]⟩
    · refine ⟨m + 1, ?_⟩
      rw [hm, h]
      push_cast
      ring

lemma passA_score_le (pv : ℕ → ℚ × ℚ × ℚ) (ls : List Laser) :
    ∀ (es : List Enemy) (sc : ℤ) (ps : List Particle) (pk : ℕ),
      (passA pv ls es sc ps pk).score ≤ sc + 100 * ls.length := by
  induction ls with
  | nil =>
    intro es sc ps pk
    simp [passA_nil]
  | cons l rest ih =>
    intro es sc ps pk
    simp only [passA_cons, List.length_cons]
    have h1 := ih (innerA pv l es sc ps pk).enemies (innerA pv l es sc ps pk).score
      (innerA pv l es sc ps pk).particles (innerA pv l es sc ps pk).pk
    rcases innerA_score pv l es sc ps pk with h | h <;> push_cast at h1 ⊢ <;> linarith [h1, h]

lemma passA_single (pv : ℕ → ℚ × ℚ × ℚ) (l : Laser) (e : Enemy) (sc : ℤ)
    (ps : List Particle) (pk : ℕ)
    (hl : l.active = true) (he : e.active = true) (hhit : laserHits l e = true) :
    passA pv [l] [e] sc ps pk =
      ⟨[l.deact], [e.deact], sc + 100,
       ps ++ burst pv pk 15 e.x e.y e.z PColor.red
          ++ burst pv (pk + 15) 10 e.x e.y e.z PColor.yellow, pk + 25⟩ := by
  have h := innerA_firstHit pv l [] e [] sc ps pk hl
    (by intro x hx; cases hx) (by rw [he, hhit]; rfl)
  simp only [List.nil_append] at h
  simp only [passA_cons, h, passA_nil]

lemma laserHits_iff_sqrt (l : Laser) (e : Enemy) (hr : 0 ≤ e.radius) :
    laserHits l e = true ↔
      Real.sqrt ((dist2 l.x l.y l.z e.x e.y e.z : ℚ) : ℝ) < (e.radius : ℝ) + 1 := by
  unfold laserHits
  rw [decide_eq_true_eq]
  have hc : (0 : ℝ) < (e.radius : ℝ) + 1 := by
    have : (0 : ℝ) ≤ (e.radius : ℝ) := by exact_mod_cast hr
    linarith
  rw [Real.sqrt_lt' hc]
  have h2 : ((e.radius : ℝ) + 1) ^ 2 = (((e.radius + 1) * (e.radius + 1) : ℚ) : ℝ) := by
    push_cast
    ring
  rw [h2, Rat.cast_lt]

/-- C3: in collision pass A, a pair of active laser and enemy within range
(Euclidean distance strictly below `enemy.radius + 1.0`) is resolved by
deactivating both, adding exactly 100 to the score, and appending exactly 25
particles (15 red then 10 yellow) at the enemy position; the concrete scenario
with an enemy at `(0,0,10)` of radius 1.5 and a laser at `(0,0,10)` collides
(distance 0 < 2.5); and after the pass no active in-range pair survives. -/
theorem c3_pass_a :
    (∀ (l : Laser) (e : Enemy), 0 ≤ e.radius →
      (laserHits l e = true ↔
        Real.sqrt ((dist2 l.x l.y l.z e.x e.y e.z : ℚ) : ℝ) < (e.radius : ℝ) + 1)) ∧
    (∀ (pv : ℕ → ℚ × ℚ × ℚ) (l : Laser) (e : Enemy) (sc : ℤ)
        (ps : List Particle) (pk : ℕ),
      l.active = true → e.active = true → laserHits l e = true →
      passA pv [l] [e] sc ps pk =
        ⟨[l.deact], [e.deact], sc + 100,
         ps ++ burst pv pk 15 e.x e.y e.z PColor.red
            ++ burst pv (pk + 15) 10 e.x e.y e.z PColor.yellow, pk + 25⟩) ∧
    (laserHits scenLaser scenEnemy = true ∧
     ∀ pv : ℕ → ℚ × ℚ × ℚ,
       (passA pv [scenLaser] [scenEnemy] 0 [] 0).score = 100 ∧
       (passA pv [scenLaser] [scenEnemy] 0 [] 0).lasers = [scenLaser.deact] ∧
       (passA pv [scenLaser] [scenEnemy] 0 [] 0).enemies = [scenEnemy.deact] ∧
       (passA pv [scenLaser] [scenEnemy] 0 [] 0).particles.length = 25) ∧
    (∀ (pv : ℕ → ℚ × ℚ × ℚ) (ls : List Laser) (es : List Enemy) (sc : ℤ)
        (ps : List Particle) (pk : ℕ),
      ∀ l1 ∈ (passA pv ls es sc ps pk).lasers, l1.active = true →
      ∀ e1 ∈ (passA pv ls es sc ps pk).enemies, e1.active = true →
      laserHits l1 e1 = false) := by
  have hscen : laserHits scenLaser scenEnemy = true := by with_unfolding_all decide
  refine ⟨laserHits_iff_sqrt,
    fun pv l e sc ps pk hl he hhit => passA_single pv l e sc ps pk hl he hhit,
    ⟨hscen, fun pv => ?_⟩,
    fun pv ls es sc ps pk => passA_noPair pv ls es sc ps pk⟩
  have h := passA_single pv scenLaser scenEnemy 0 [] 0 rfl rfl hscen
  rw [h]
  refine ⟨rfl, rfl, rfl, ?_⟩
  simp [burst_length]

/-- Witness for C3: the single-pair conclusion applied to the concrete scenario
pair at score 0 with no pre-existing particles. -/
theorem c3_pass_a_witness :
    passA pv0 [scenLaser] [scenEnemy] 0 [] 0 =
      ⟨[scenLaser.deact], [scenEnemy.deact], 100,
       [] ++ burst pv0 0 15 scenEnemy.x scenEnemy.y scenEnemy.z PColor.red
          ++ burst pv0 15 10 scenEnemy.x scenEnemy.y scenEnemy.z PColor.yellow, 25⟩ := by
  have h := c3_pass_a.2.1 pv0 scenLaser scenEnemy 0 [] 0 rfl rfl
    (by with_unfolding_all decide)
  simpa using h

/-- C7: within one pass A, a laser scores at most once: processing a single
laser against the enemy list adds either 0 or exactly 100 to the score and
deactivates at most one enemy, an inactive laser is skipped entirely by the
per-pair guard, and consequently the whole pass adds at most 100 per laser. -/
theorem c7_laser_scores_once :
    (∀ (pv : ℕ → ℚ × ℚ × ℚ) (l : Laser) (es : List Enemy) (sc : ℤ)
        (ps : List Particle) (pk : ℕ),
      ((innerA pv l es sc ps pk).score = sc ∨
       (innerA pv l es sc ps pk).score = sc + 100) ∧
      es.countP (fun e => e.active) ≤
        (innerA pv l es sc ps pk).enemies.countP (fun e => e.active) + 1 ∧
      (l.active = false → innerA pv l es sc ps pk = ⟨l, es, sc, ps, pk⟩)) ∧
    (∀ (pv : ℕ → ℚ × ℚ × ℚ) (ls : List Laser) (es : List Enemy) (sc : ℤ)
        (ps : List Particle) (pk : ℕ),
      (passA pv ls es sc ps pk).score ≤ sc + 100 * ls.length) := by
  exact ⟨fun pv l es sc ps pk =>
    ⟨innerA_score pv l es sc ps pk, innerA_activeCount pv l es sc ps pk,
     innerA_inactive pv l es sc ps pk⟩,
    fun pv ls es sc ps pk => passA_score_le pv ls es sc ps pk⟩

/-- Witness for C7: an inactive laser leaves the pass state untouched, by the
skip conclusion applied to the deactivated scenario laser. -/
theorem c7_laser_scores_once_witness :
    innerA pv0 scenLaser.deact [scenEnemy] 0 [] 0 =
      ⟨scenLaser.deact, [scenEnemy], 0, [], 0⟩ :=
  (c7_laser_scores_once.1 pv0 scenLaser.deact [scenEnemy] 0 [] 0).2.2 rfl

lemma bool_eq_of_iff {a b : Bool} (h : a = true ↔ b = true) : a = b := by
  cases a <;> cases b <;> simp_all

lemma passBE_nil (pv : ℕ → ℚ × ℚ × ℚ) (pl : Player) (hp : ℤ) (go : Bool)
    (ps : List Particle) (pk : ℕ) :
    passBE pv pl [] hp go ps pk = ⟨[], hp, go, ps, pk⟩ := rfl

lemma passBE_cons (pv : ℕ → ℚ × ℚ × ℚ) (pl : Player) (e : Enemy) (rest : List Enemy)
    (hp : ℤ) (go : Bool) (ps : List Particle) (pk : ℕ) :
    passBE pv pl (e :: rest) hp go ps pk =
      if eCollides pl e then
        let out := passBE pv pl rest (hp - 25) (go || decide (hp - 25 ≤ 0))
          (ps ++ burst pv pk 20 pl.x pl.y pl.z PColor.cyan) (pk + 20)
        { out with enemies := e.deact :: out.enemies }
      else
        let out := passBE pv pl rest hp go ps pk
        { out with enemies := e :: out.enemies } := rfl

lemma passBE_enemies (pv : ℕ → ℚ × ℚ × ℚ) (pl : Player) (es : List Enemy) :
    ∀ (hp : ℤ) (go : Bool) (ps : List Particle) (pk : ℕ),
      (passBE pv pl es hp go ps pk).enemies =
        es.map fun e => if eCollides pl e then e.deact else e := by
  induction es with
  | nil => intro hp go ps pk; rfl
  | cons e rest ih =>
    intro hp go ps pk
    by_cases hc : eCollides pl e = true
    · simp [passBE_cons, hc, ih]
    · simp [passBE_cons, hc, ih]

lemma passBE_hp (pv : ℕ → ℚ × ℚ × ℚ) (pl : Player) (es : List Enemy) :
    ∀ (hp : ℤ) (go : Bool) (ps : List Particle) (pk : ℕ),
      (passBE pv pl es hp go ps pk).hp =
        hp - 25 * (es.countP (eCollides pl) : ℤ) := by
  induction es with
  | nil => intro hp go ps pk; simp [passBE_nil]
  | cons e rest ih =>
    intro hp go ps pk
    by_cases hc : eCollides pl e = true
    · simp only [passBE_cons, if_pos hc, List.countP_cons, hc, if_true, ih]
      push_cast
      ring
    · simp only [passBE_cons, if_neg hc, List.countP_cons, ih]
      have hc0 : eCollides pl e = false := by
        cases h : eCollides pl e
        · rfl
        · exact absurd h hc
      simp [hc0]

lemma passBE_go (pv : ℕ → ℚ × ℚ × ℚ) (pl : Player) (es : List Enemy) :
    ∀ (hp : ℤ) (go : Bool) (ps : List Particle) (pk : ℕ),
      ((passBE pv pl es hp go ps pk).gameOver = true ↔
        (go = true ∨ (es.countP (eCollides pl) ≠ 0 ∧
          hp - 25 * (es.countP (eCollides pl) : ℤ) ≤ 0))) := by
  induction es with
  | nil => intro hp go ps pk; simp [passBE_nil]
  | cons e rest ih =>
    intro hp go ps pk
    by_cases hc : eCollides pl e = true
    · have h1 : (passBE pv pl (e :: rest) hp go ps pk).gameOver =
          (passBE pv pl rest (hp - 25) (go || decide (hp - 25 ≤ 0))
            (ps ++ burst pv pk 20 pl.x pl.y pl.z PColor.cyan) (pk + 20)).gameOver := by
        rw [passBE_cons, if_pos hc]
      have hcnt : (e :: rest).countP (eCollides pl) = rest.countP (eCollides pl) + 1 := by
        simp [List.countP_cons, hc]
      rw [h1, ih, hcnt]
      simp only [Bool.or_eq_true, decide_eq_true_eq]
      push_cast
      constructor
      · rintro ((hgo | hhp) | ⟨hc1, hc2⟩)
        · exact Or.inl hgo
        · exact Or.inr ⟨by omega, by omega⟩
        · exact Or.inr ⟨by omega, by omega⟩
      · rintro (hgo | ⟨hc1, hc2⟩)
        · exact Or.inl (Or.inl hgo)
        · by_cases hc9 : List.countP (eCollides pl) rest = 0
          · exact Or.inl (Or.inr (by omega))
          · exact Or.inr ⟨hc9, by omega⟩
    · have hc0 : eCollides pl e = false := by
        cases h : eCollides pl e
        · rfl
        · exact absurd h hc
      have h1 : (passBE pv pl (e :: rest) hp go ps pk).gameOver =
          (passBE pv pl rest hp go ps pk).gameOver := by
        rw [passBE_cons, if_neg hc]
      have hcnt : (e :: rest).countP (eCollides pl) = rest.countP (eCollides pl) := by
        simp [List.countP_cons, hc0]
      rw [h1, ih, hcnt]

lemma passBE_parts_len (pv : ℕ → ℚ × ℚ × ℚ) (pl : Player) (es : List Enemy) :
    ∀ (hp : ℤ) (go : Bool) (ps : List Particle) (pk : ℕ),
      (passBE pv pl es hp go ps pk).particles.length =
        ps.length + 20 * es.countP (eCollides pl) := by
  induction es with
  | nil => intro hp go ps pk; simp [passBE_nil]
  | cons e rest ih =>
    intro hp go ps pk
    by_cases hc : eCollides pl e = true
    · have h1 : (passBE pv pl (e :: rest) hp go ps pk).particles =
          (passBE pv pl rest (hp - 25) (go || decide (hp - 25 ≤ 0))
            (ps ++ burst pv pk 20 pl.x pl.y pl.z PColor.cyan) (pk + 20)).particles := by
        rw [passBE_cons, if_pos hc]
      have hcnt : (e :: rest).countP (eCollides pl) = rest.countP (eCollides pl) + 1 := by
        simp [List.countP_cons, hc]
      rw [h1, ih, hcnt]
      simp only [List.length_append, burst_length]
      ring
    · have hc0 : eCollides pl e = false := by
        cases h : eCollides pl e
        · rfl
        · exact absurd h hc
      have h1 : (passBE pv pl (e :: rest) hp go ps pk).particles =
          (passBE pv pl rest hp go ps pk).particles := by
        rw [passBE_cons, if_neg hc]
      have hcnt : (e :: rest).countP (eCollides pl) = rest.countP (eCollides pl) := by
        simp [List.countP_cons, hc0]
      rw [h1, ih, hcnt]

lemma passBO_nil (pv : ℕ → ℚ × ℚ × ℚ) (pl : Player) (hp : ℤ) (go : Bool)
    (ps : List Particle) (pk : ℕ) :
    passBO pv pl [] hp go ps pk = ⟨[], hp, go, ps, pk⟩ := rfl

lemma passBO_cons (pv : ℕ → ℚ × ℚ × ℚ) (pl : Player) (o : Obstacle) (rest : List Obstacle)
    (hp : ℤ) (go : Bool) (ps : List Particle) (pk : ℕ) :
    passBO pv pl (o :: rest) hp go ps pk =
      if oCollides pl o then
        let out := passBO pv pl rest (hp - 25) (go || decide (hp - 25 ≤ 0))
          (ps ++ burst pv pk 20 pl.x pl.y pl.z PColor.cyan) (pk + 20)
        { out with obstacles := o.deact :: out.obstacles }
      else
        let out := passBO pv pl rest hp go ps pk
        { out with obstacles := o :: out.obstacles } := rfl

lemma passBO_obstacles (pv : ℕ → ℚ × ℚ × ℚ) (pl : Player) (os : List Obstacle) :
    ∀ (hp : ℤ) (go : Bool) (ps : List Particle) (pk : ℕ),
      (passBO pv pl os hp go ps pk).obstacles =
        os.map fun o => if oCollides pl o then o.deact else o := by
  induction os with
  | nil => intro hp go ps pk; rfl
  | cons o rest ih =>
    intro hp go ps pk
    by_cases hc : oCollides pl o = true
    · simp [passBO_cons, hc, ih]
    · simp [passBO_cons, hc, ih]

lemma passBO_hp (pv : ℕ → ℚ × ℚ × ℚ) (pl : Player) (os : List Obstacle) :
    ∀ (hp : ℤ) (go : Bool) (ps : List Particle) (pk : ℕ),
      (passBO pv pl os hp go ps pk).hp =
        hp - 25 * (os.countP (oCollides pl) : ℤ) := by
  induction os with
  | nil => intro hp go ps pk; simp [passBO_nil]
  | cons o rest ih =>
    intro hp go ps pk
    by_cases hc : oCollides pl o = true
    · simp only [passBO_cons, if_pos hc, List.countP_cons, hc, if_true, ih]
      push_cast
      ring
    · have hc0 : oCollides pl o = false := by
        cases h : oCollides pl o
        · rfl
        · exact absurd h hc
      simp only [passBO_cons, if_neg hc, List.countP_cons, hc0, ih]
      simp

lemma passBO_go (pv : ℕ → ℚ × ℚ × ℚ) (pl : Player) (os : List Obstacle) :
    ∀ (hp : ℤ) (go : Bool) (ps : List Particle) (pk : ℕ),
      ((passBO pv pl os hp go ps pk).gameOver = true ↔
        (go = true ∨ (os.countP (oCollides pl) ≠ 0 ∧
          hp - 25 * (os.countP (oCollides pl) : ℤ) ≤ 0))) := by
  induction os with
  | nil => intro hp go ps pk; simp [passBO_nil]
  | cons o rest ih =>
    intro hp go ps pk
    by_cases hc : oCollides pl o = true
    · have h1 : (passBO pv pl (o :: rest) hp go ps pk).gameOver =
          (passBO pv pl rest (hp - 25) (go || decide (hp - 25 ≤ 0))
            (ps ++ burst pv pk 20 pl.x pl.y pl.z PColor.cyan) (pk + 20)).gameOver := by
        rw [passBO_cons, if_pos hc]
      have hcnt : (o :: rest).countP (oCollides pl) = rest.countP (oCollides pl) + 1 := by
        simp [List.countP_cons, hc]
      rw [h1, ih, hcnt]
      simp only [Bool.or_eq_true, decide_eq_true_eq]
      push_cast
      constructor
      · rintro ((hgo | hhp) | ⟨hc1, hc2⟩)
        · exact Or.inl hgo
        · exact Or.inr ⟨by omega, by omega⟩
        · exact Or.inr ⟨by omega, by omega⟩
      · rintro (hgo | ⟨hc1, hc2⟩)
        · exact Or.inl (Or.inl hgo)
        · by_cases hc9 : List.countP (oCollides pl) rest = 0
          · exact Or.inl (Or.inr (by omega))
          · exact Or.inr ⟨hc9, by omega⟩
    · have hc0 : oCollides pl o = false := by
        cases h : oCollides pl o
        · rfl
        · exact absurd h hc
      have h1 : (passBO pv pl (o :: rest) hp go ps pk).gameOver =
          (passBO pv pl rest hp go ps pk).gameOver := by
        rw [passBO_cons, if_neg hc]
      have hcnt : (o :: rest).countP (oCollides pl) = rest.countP (oCollides pl) := by
        simp [List.countP_cons, hc0]
      rw [h1, ih, hcnt]

lemma passBO_parts_len (pv : ℕ → ℚ × ℚ × ℚ) (pl : Player) (os : List Obstacle) :
    ∀ (hp : ℤ) (go : Bool) (ps : List Particle) (pk : ℕ),
      (passBO pv pl os hp go ps pk).particles.length =
        ps.length + 20 * os.countP (oCollides pl) := by
  induction os with
  | nil => intro hp go ps pk; simp [passBO_nil]
  | cons o rest ih =>
    intro hp go ps pk
    by_cases hc : oCollides pl o = true
    · have h1 : (passBO pv pl (o :: rest) hp go ps pk).particles =
          (passBO pv pl rest (hp - 25) (go || decide (hp - 25 ≤ 0))
            (ps ++ burst pv pk 20 pl.x pl.y pl.z PColor.cyan) (pk + 20)).particles := by
        rw [passBO_cons, if_pos hc]
      have hcnt : (o :: rest).countP (oCollides pl) = rest.countP (oCollides pl) + 1 := by
        simp [List.countP_cons, hc]
      rw [h1, ih, hcnt]
      simp only [List.length_append, burst_length]
      ring
    · have hc0 : oCollides pl o = false := by
        cases h : oCollides pl o
        · rfl
        · exact absurd h hc
      have h1 : (passBO pv pl (o :: rest) hp go ps pk).particles =
          (passBO pv pl rest hp go ps pk).particles := by
        rw [passBO_cons, if_neg hc]
      have hcnt : (o :: rest).countP (oCollides pl) = rest.countP (oCollides pl) := by
        simp [List.countP_cons, hc0]
      rw [h1, ih, hcnt]

/-- Counterexample to C8: the outcome of the laser-enemy pass depends on the
iteration order.  With `ceL1` in range of `ceE1` only and `ceL2` in range of
both enemies, processing `ceL1` first scores 200 (both enemies destroyed),
while processing `ceL2` first scores only 100 and leaves the surviving
entities different -- even though the two laser lists are permutations. -/
theorem c8_order_counterexample :
    (passA pv0 [ceL1, ceL2] [ceE1, ceE2] 0 [] 0).score = 200 ∧
    (passA pv0 [ceL2, ceL1] [ceE1, ceE2] 0 [] 0).score = 100 ∧
    (passA pv0 [ceL1, ceL2] [ceE1, ceE2] 0 [] 0).enemies ≠
      (passA pv0 [ceL2, ceL1] [ceE1, ceE2] 0 [] 0).enemies ∧
    List.Perm [ceL2, ceL1] [ceL1, ceL2] := by
  refine ⟨?_, ?_, ?_, List.Perm.swap ceL1 ceL2 []⟩
  · with_unfolding_all decide
  · with_unfolding_all decide
  · with_unfolding_all decide

/-- C8 as amended: only the player-versus-entity pass (pass B) is
order independent -- permuting the enemy list or the obstacle list permutes the
resulting entities accordingly and leaves final health, game-over flag and
particle count unchanged.  The laser-enemy pass is not order independent: a
laser consumes the first in-range enemy in iteration order, so reordering can
change the final score and the surviving entities (see the counterexample). -/
theorem c8_passB_order_independent :
    (∀ (pv : ℕ → ℚ × ℚ × ℚ) (pl : Player) (es1 es2 : List Enemy) (hp : ℤ)
        (go : Bool) (ps : List Particle) (pk : ℕ),
      List.Perm es1 es2 →
      (passBE pv pl es1 hp go ps pk).hp = (passBE pv pl es2 hp go ps pk).hp ∧
      (passBE pv pl es1 hp go ps pk).gameOver = (passBE pv pl es2 hp go ps pk).gameOver ∧
      List.Perm (passBE pv pl es1 hp go ps pk).enemies (passBE pv pl es2 hp go ps pk).enemies ∧
      (passBE pv pl es1 hp go ps pk).particles.length =
        (passBE pv pl es2 hp go ps pk).particles.length) ∧
    (∀ (pv : ℕ → ℚ × ℚ × ℚ) (pl : Player) (os1 os2 : List Obstacle) (hp : ℤ)
        (go : Bool) (ps : List Particle) (pk : ℕ),
      List.Perm os1 os2 →
      (passBO pv pl os1 hp go ps pk).hp = (passBO pv pl os2 hp go ps pk).hp ∧
      (passBO pv pl os1 hp go ps pk).gameOver = (passBO pv pl os2 hp go ps pk).gameOver ∧
      List.Perm (passBO pv pl os1 hp go ps pk).obstacles (passBO pv pl os2 hp go ps pk).obstacles ∧
      (passBO pv pl os1 hp go ps pk).particles.length =
        (passBO pv pl os2 hp go ps pk).particles.length) := by
  constructor
  · intro pv pl es1 es2 hp go ps pk hperm
    have hcnt : es1.countP (eCollides pl) = es2.countP (eCollides pl) :=
      hperm.countP_eq (eCollides pl)
    refine ⟨?_, ?_, ?_, ?_⟩
    · rw [passBE_hp, passBE_hp, hcnt]
    · refine bool_eq_of_iff ?_
      rw [passBE_go, passBE_go, hcnt]
    · rw [passBE_enemies, passBE_enemies]
      exact hperm.map _
    · rw [passBE_parts_len, passBE_parts_len, hcnt]
  · intro pv pl os1 os2 hp go ps pk hperm
    have hcnt : os1.countP (oCollides pl) = os2.countP (oCollides pl) :=
      hperm.countP_eq (oCollides pl)
    refine ⟨?_, ?_, ?_, ?_⟩
    · rw [passBO_hp, passBO_hp, hcnt]
    · refine bool_eq_of_iff ?_
      rw [passBO_go, passBO_go, hcnt]
    · rw [passBO_obstacles, passBO_obstacles]
      exact hperm.map _
    · rw [passBO_parts_len, passBO_parts_len, hcnt]

/-- Witness for the amended C8: swapping the two concrete enemies of the
counterexample leaves the health resulting from pass B unchanged. -/
theorem c8_passB_order_independent_witness :
    (passBE pv0 Player.init [ceE1, ceE2] 100 false [] 0).hp =
      (passBE pv0 Player.init [ceE2, ceE1] 100 false [] 0).hp :=
  (c8_passB_order_independent.1 pv0 Player.init [ceE1, ceE2] [ceE2, ceE1]
    100 false [] 0 (List.Perm.swap ceE2 ceE1 [])).1

lemma playerHitsE_iff_sqrt (pl : Player) (e : Enemy) (hr : 0 ≤ e.radius) :
    playerHitsE pl e = true ↔
      Real.sqrt ((dist2 pl.x pl.y pl.z e.x e.y e.z : ℚ) : ℝ) < (e.radius : ℝ) + 3/2 := by
  unfold playerHitsE
  rw [decide_eq_true_eq]
  have hc : (0 : ℝ) < (e.radius : ℝ) + 3/2 := by
    have : (0 : ℝ) ≤ (e.radius : ℝ) := by exact_mod_cast hr
    linarith
  rw [Real.sqrt_lt' hc]
  have h2 : ((e.radius : ℝ) + 3/2) ^ 2 = (((e.radius + 3/2) * (e.radius + 3/2) : ℚ) : ℝ) := by
    push_cast
    ring
  rw [h2, Rat.cast_lt]

lemma playerHitsO_iff_sqrt (pl : Player) (o : Obstacle) (hr : 0 ≤ o.radius) :
    playerHitsO pl o = true ↔
      Real.sqrt ((dist2 pl.x pl.y pl.z o.x o.y o.z : ℚ) : ℝ) < (o.radius : ℝ) + 3/2 := by
  unfold playerHitsO
  rw [decide_eq_true_eq]
  have hc : (0 : ℝ) < (o.radius : ℝ) + 3/2 := by
    have : (0 : ℝ) ≤ (o.radius : ℝ) := by exact_mod_cast hr
    linarith
  rw [Real.sqrt_lt' hc]
  have h2 : ((o.radius : ℝ) + 3/2) ^ 2 = (((o.radius + 3/2) * (o.radius + 3/2) : ℚ) : ℝ) := by
    push_cast
    ring
  rw [h2, Rat.cast_lt]

lemma procEvent_skip (s : GameState) (ev : GEvent)
    (hgo : s.game_over = true) (hne : ev ≠ GEvent.rkey) : procEvent s ev = s := by
  cases ev with
  | space =>
    unfold procEvent
    rw [if_neg]
    rintro ⟨h1, _⟩
    rw [hgo] at h1
    cases h1
  | rkey => exact absurd rfl hne
  | other => rfl

lemma foldl_procEvent_skip (evs : List GEvent) :
    ∀ s : GameState, s.game_over = true → (∀ ev ∈ evs, ev ≠ GEvent.rkey) →
      evs.foldl procEvent s = s := by
  induction evs with
  | nil => intro s _ _; rfl
  | cons ev rest ih =>
    intro s hgo hne
    have h1 : procEvent s ev = s :=
      procEvent_skip s ev hgo (hne ev (List.mem_cons_self ev rest))
    calc (ev :: rest).foldl procEvent s = rest.foldl procEvent (procEvent s ev) := rfl
      _ = rest.foldl procEvent s := by rw [h1]
      _ = s := ih s hgo fun e he => hne e (List.mem_cons_of_mem ev he)

lemma frame_frozen (s : GameState) (inp : FrameInput)
    (hgo : s.game_over = true) (hne : GEvent.rkey ∉ inp.events) :
    frame s inp = s := by
  unfold frame
  rw [foldl_procEvent_skip inp.events s hgo
    (fun ev hev heq => hne (heq ▸ hev)), if_pos hgo]

/-- C9: while the game is over, a frame without a restart event performs no
simulation -- the whole state (player, score, scroll offset, and the laser,
enemy, obstacle and particle collections) is unchanged; only rendering occurs. -/
theorem c9_game_over_skips_simulation (s : GameState) (inp : FrameInput)
    (hgo : s.game_over = true) (hne : GEvent.rkey ∉ inp.events) :
    frame s inp = s :=
  frame_frozen s inp hgo hne

/-- Witness for C9: a game-over state is untouched by an eventless frame. -/
theorem c9_game_over_skips_simulation_witness : frame goState idleFrame = goState := by
  refine c9_game_over_skips_simulation goState idleFrame rfl ?_
  intro h
  cases h

/-- C2: every collision of pass B deactivates the colliding entity and costs
exactly 25 health (final health is the initial health minus 25 per colliding
entity); starting from a running state with positive health, the pass ends in
game over exactly when the resulting health is less than or equal to 0; a
game-over state persists through any frame without a restart event; and the
restart handler resets health to 100 and score to 0 and empties the laser,
enemy, obstacle and particle collections. -/
theorem c2_health_and_game_over :
    (∀ (pl : Player) (e : Enemy), 0 ≤ e.radius →
      (playerHitsE pl e = true ↔
        Real.sqrt ((dist2 pl.x pl.y pl.z e.x e.y e.z : ℚ) : ℝ) < (e.radius : ℝ) + 3/2)) ∧
    (∀ (pl : Player) (o : Obstacle), 0 ≤ o.radius →
      (playerHitsO pl o = true ↔
        Real.sqrt ((dist2 pl.x pl.y pl.z o.x o.y o.z : ℚ) : ℝ) < (o.radius : ℝ) + 3/2)) ∧
    (∀ (pv : ℕ → ℚ × ℚ × ℚ) (pl : Player) (es : List Enemy) (os : List Obstacle)
        (hp : ℤ) (go : Bool) (ps : List Particle) (pk : ℕ),
      (passBE pv pl es hp go ps pk).enemies =
        es.map (fun e => if eCollides pl e then e.deact else e) ∧
      (passBO pv pl os hp go ps pk).obstacles =
        os.map (fun o => if oCollides pl o then o.deact else o) ∧
      ((passBO pv pl os (passBE pv pl es hp go ps pk).hp
          (passBE pv pl es hp go ps pk).gameOver
          (passBE pv pl es hp go ps pk).particles
          (passBE pv pl es hp go ps pk).pk).hp =
        hp - 25 * ((es.countP (eCollides pl) : ℤ) + (os.countP (oCollides pl) : ℤ))) ∧
      (go = false → 0 < hp →
        ((passBO pv pl os (passBE pv pl es hp go ps pk).hp
            (passBE pv pl es hp go ps pk).gameOver
            (passBE pv pl es hp go ps pk).particles
            (passBE pv pl es hp go ps pk).pk).gameOver = true ↔
          (passBO pv pl os (passBE pv pl es hp go ps pk).hp
            (passBE pv pl es hp go ps pk).gameOver
            (passBE pv pl es hp go ps pk).particles
            (passBE pv pl es hp go ps pk).pk).hp ≤ 0))) ∧
    (∀ (s : GameState) (inp : FrameInput), s.game_over = true →
      GEvent.rkey ∉ inp.events → (frame s inp).game_over = true) ∧
    (∀ s : GameState, s.game_over = true →
      procEvent s GEvent.rkey =
        { player := Player.init, lasers := [], enemies := [], obstacles := []
          particles := [], score := 0, scroll_offset := s.scroll_offset
          game_over := false }) := by
  refine ⟨playerHitsE_iff_sqrt, playerHitsO_iff_sqrt, ?_, ?_, ?_⟩
  · intro pv pl es os hp go ps pk
    have hEhp := passBE_hp pv pl es hp go ps pk
    have hOhp := passBO_hp pv pl os (passBE pv pl es hp go ps pk).hp
      (passBE pv pl es hp go ps pk).gameOver
      (passBE pv pl es hp go ps pk).particles
      (passBE pv pl es hp go ps pk).pk
    have hEgo := passBE_go pv pl es hp go ps pk
    have hOgo := passBO_go pv pl os (passBE pv pl es hp go ps pk).hp
      (passBE pv pl es hp go ps pk).gameOver
      (passBE pv pl es hp go ps pk).particles
      (passBE pv pl es hp go ps pk).pk
    refine ⟨passBE_enemies pv pl es hp go ps pk,
      passBO_obstacles pv pl os hp go ps pk, ?_, ?_⟩
    · rw [hOhp, hEhp]
      ring
    · intro hgo hhp
      rw [hOgo, hEgo, hOhp, hEhp, hgo]
      constructor
      · rintro ((h | ⟨hc1, hc2⟩) | ⟨hc1, hc2⟩)
        · cases h
        · omega
        · omega
      · intro hle
        by_cases hcO : os.countP (oCollides pl) = 0
        · refine Or.inl (Or.inr ⟨?_, by omega⟩)
          omega
        · exact Or.inr ⟨hcO, by omega⟩
  · intro s inp hgo hne
    rw [frame_frozen s inp hgo hne, hgo]
  · intro s hgo
    unfold procEvent
    rw [if_pos hgo]

/-- Witness for C2: restarting from a concrete game-over state yields the reset
state (health 100, score 0, all collections empty). -/
theorem c2_health_and_game_over_witness :
    procEvent goState GEvent.rkey =
      { player := Player.init, lasers := [], enemies := [], obstacles := []
        particles := [], score := 0, scroll_offset := goState.scroll_offset
        game_over := false } :=
  c2_health_and_game_over.2.2.2.2 goState rfl

lemma procEvent_score (s : GameState) (ev : GEvent) :
    (procEvent s ev).score = s.score ∨ (procEvent s ev).score = 0 := by
  cases ev with
  | space =>
    unfold procEvent
    by_cases h : s.game_over = false ∧ s.player.cooldown ≤ 0
    · rw [if_pos h]
      exact Or.inl rfl
    · rw [if_neg h]
      exact Or.inl rfl
  | rkey =>
    unfold procEvent
    by_cases h : s.game_over = true
    · rw [if_pos h]
      exact Or.inr rfl
    · rw [if_neg h]
      exact Or.inl rfl
  | other => exact Or.inl rfl

lemma procEvent_score_eq (s : GameState) (ev : GEvent) (hne : ev ≠ GEvent.rkey) :
    (procEvent s ev).score = s.score := by
  cases ev with
  | space =>
    unfold procEvent
    by_cases h : s.game_over = false ∧ s.player.cooldown ≤ 0
    · rw [if_pos h]
    · rw [if_neg h]
  | rkey => exact absurd rfl hne
  | other => rfl

lemma foldl_procEvent_score_inv (evs : List GEvent) :
    ∀ s : GameState, 0 ≤ s.score ∧ (100 : ℤ) ∣ s.score →
      0 ≤ (evs.foldl procEvent s).score ∧ (100 : ℤ) ∣ (evs.foldl procEvent s).score := by
  induction evs with
  | nil => intro s h; exact h
  | cons ev rest ih =>
    intro s h
    refine ih (procEvent s ev) ?_
    rcases procEvent_score s ev with he | he <;> rw [he]
    · exact h
    · exact ⟨le_refl 0, dvd_zero 100⟩

lemma foldl_procEvent_score_eq (evs : List GEvent) :
    ∀ s : GameState, (∀ ev ∈ evs, ev ≠ GEvent.rkey) →
      (evs.foldl procEvent s).score = s.score := by
  induction evs with
  | nil => intro s _; rfl
  | cons ev rest ih =>
    intro s hne
    calc (rest.foldl procEvent (procEvent s ev)).score
        = (procEvent s ev).score := ih _ fun e he => hne e (List.mem_cons_of_mem ev he)
      _ = s.score := procEvent_score_eq s ev (hne ev (List.mem_cons_self ev rest))

lemma simStep_score_ex (s : GameState) (inp : FrameInput) :
    ∃ n : ℕ, (simStep s inp).score = s.score + 100 * n := by
  simp only [simStep]
  exact passA_score_ex _ _ _ _ _ _

lemma frame_score_inv (s : GameState) (inp : FrameInput)
    (h : 0 ≤ s.score ∧ (100 : ℤ) ∣ s.score) :
    0 ≤ (frame s inp).score ∧ (100 : ℤ) ∣ (frame s inp).score := by
  unfold frame
  have h1 := foldl_procEvent_score_inv inp.events s h
  by_cases hgo : (inp.events.foldl procEvent s).game_over = true
  · rw [if_pos hgo]
    exact h1
  · rw [if_neg hgo]
    obtain ⟨n, hn⟩ := simStep_score_ex (inp.events.foldl procEvent s) inp
    rw [hn]
    constructor
    · have hn0 : (0 : ℤ) ≤ 100 * n := by positivity
      linarith [h1.1]
    · exact dvd_add h1.2 ⟨n, by ring⟩

lemma frame_score_mono (s : GameState) (inp : FrameInput)
    (hne : GEvent.rkey ∉ inp.events) :
    s.score ≤ (frame s inp).score := by
  unfold frame
  have h1 := foldl_procEvent_score_eq inp.events s (fun ev hev heq => hne (heq ▸ hev))
  by_cases hgo : (inp.events.foldl procEvent s).game_over = true
  · rw [if_pos hgo, h1]
  · rw [if_neg hgo]
    obtain ⟨n, hn⟩ := simStep_score_ex (inp.events.foldl procEvent s) inp
    rw [hn, h1]
    have hn0 : (0 : ℤ) ≤ 100 * n := by positivity
    linarith

lemma procEvent_hp_inv (s : GameState) (ev : GEvent)
    (h : s.game_over = false → 0 < s.player.hp) :
    (procEvent s ev).game_over = false → 0 < (procEvent s ev).player.hp := by
  cases ev with
  | space =>
    unfold procEvent
    by_cases hc : s.game_over = false ∧ s.player.cooldown ≤ 0
    · rw [if_pos hc]
      intro _
      exact h hc.1
    · rw [if_neg hc]
      exact h
  | rkey =>
    unfold procEvent
    by_cases hc : s.game_over = true
    · rw [if_pos hc]
      intro _
      norm_num [Player.init]
    · rw [if_neg hc]
      exact h
  | other => exact h

lemma foldl_procEvent_hp_inv (evs : List GEvent) :
    ∀ s : GameState, (s.game_over = false → 0 < s.player.hp) →
      ((evs.foldl procEvent s).game_over = false →
        0 < (evs.foldl procEvent s).player.hp) := by
  induction evs with
  | nil => intro s h; exact h
  | cons ev rest ih =>
    intro s h
    exact ih (procEvent s ev) (procEvent_hp_inv s ev h)

lemma passB_combined_pos (pv : ℕ → ℚ × ℚ × ℚ) (pl : Player) (es : List Enemy)
    (os : List Obstacle) (hp : ℤ) (go : Bool) (ps : List Particle) (pk : ℕ)
    (_hgo : go = false) (hhp : 0 < hp)
    (h2 : (passBO pv pl os (passBE pv pl es hp go ps pk).hp
      (passBE pv pl es hp go ps pk).gameOver
      (passBE pv pl es hp go ps pk).particles
      (passBE pv pl es hp go ps pk).pk).gameOver = false) :
    0 < (passBO pv pl os (passBE pv pl es hp go ps pk).hp
      (passBE pv pl es hp go ps pk).gameOver
      (passBE pv pl es hp go ps pk).particles
      (passBE pv pl es hp go ps pk).pk).hp := by
  have hEhp := passBE_hp pv pl es hp go ps pk
  have hOhp := passBO_hp pv pl os (passBE pv pl es hp go ps pk).hp
    (passBE pv pl es hp go ps pk).gameOver
    (passBE pv pl es hp go ps pk).particles
    (passBE pv pl es hp go ps pk).pk
  have hEgo := passBE_go pv pl es hp go ps pk
  have hOgo := passBO_go pv pl os (passBE pv pl es hp go ps pk).hp
    (passBE pv pl es hp go ps pk).gameOver
    (passBE pv pl es hp go ps pk).particles
    (passBE pv pl es hp go ps pk).pk
  rw [hOhp, hEhp]
  by_contra hle
  push_neg at hle
  have hOgoTrue : (passBO pv pl os (passBE pv pl es hp go ps pk).hp
      (passBE pv pl es hp go ps pk).gameOver
      (passBE pv pl es hp go ps pk).particles
      (passBE pv pl es hp go ps pk).pk).gameOver = true := by
    rw [hOgo]
    by_cases hcO : os.countP (oCollides pl) = 0
    · refine Or.inl (hEgo.mpr (Or.inr ⟨?_, ?_⟩)) <;> omega
    · exact Or.inr ⟨hcO, by rw [hEhp]; omega⟩
  rw [hOgoTrue] at h2
  cases h2

lemma simStep_hp_inv (s : GameState) (inp : FrameInput)
    (hgo : s.game_over = false) (hhp : 0 < s.player.hp) :
    (simStep s inp).game_over = false → 0 < (simStep s inp).player.hp := by
  intro hgo2
  exact passB_combined_pos inp.pv (s.player.update inp.dt inp.keys) _ _ _
    s.game_over _ _ hgo hhp hgo2

lemma frame_hp_inv (s : GameState) (inp : FrameInput)
    (h : s.game_over = false → 0 < s.player.hp) :
    (frame s inp).game_over = false → 0 < (frame s inp).player.hp := by
  unfold frame
  have h1 := foldl_procEvent_hp_inv inp.events s h
  by_cases hgo : (inp.events.foldl procEvent s).game_over = true
  · rw [if_pos hgo]
    exact h1
  · rw [if_neg hgo]
    have hgo1 : (inp.events.foldl procEvent s).game_over = false := by
      cases hh : (inp.events.foldl procEvent s).game_over
      · rfl
      · exact absurd hh hgo
    exact simStep_hp_inv (inp.events.foldl procEvent s) inp hgo1 (h1 hgo1)

/-- Counterexample to C6: health is not floored at 0.  Five enemies spawned
dead ahead over five zero-time frames reach the player simultaneously in the
sixth frame; the collision loop keeps processing after health reaches 0, so the
reachable end-of-frame state has health -25 < 0. -/
theorem c6_health_floor_counterexample :
    Reachable c6Run ∧ c6Run.player.hp < 0 := by
  constructor
  · refine reachable_runFrames _ initState Reachable.start ?_
    intro i hi
    have hspawn : ValidInput spawnFrame := by
      unfold ValidInput spawnFrame
      norm_num
    have hcrash : ValidInput crashFrame := by
      unfold ValidInput crashFrame
      norm_num
    simp only [List.mem_cons, List.not_mem_nil, or_false] at hi
    rcases hi with rfl | rfl | rfl | rfl | rfl | rfl <;> first | exact hspawn | exact hcrash
  · with_unfolding_all decide

/-- C6 as amended: health has no floor at 0 (a frame that processes several
collisions can drive it negative, see the counterexample), but whenever the
game is not in the game-over state the player's health is strictly positive;
equivalently, health ever drops to 0 or below only in the very frame that
enters game over. -/
theorem c6_health_positive_while_running :
    ∀ s : GameState, Reachable s → s.game_over = false → 0 < s.player.hp := by
  intro s hs
  induction hs with
  | start =>
    intro _
    norm_num [initState, Player.init]
  | step s0 inp _hreach _hvalid ih => exact frame_hp_inv s0 inp ih

/-- Witness for the amended C6, applied at the initial state. -/
theorem c6_health_positive_while_running_witness : 0 < initState.player.hp :=
  c6_health_positive_while_running initState Reachable.start rfl

/-- C10: in every reachable state the score is a non-negative multiple of 100;
within a game (no restart event) a frame never decreases it; pass A changes the
score by exactly 100 per collision; and the restart handler resets it to 0. -/
theorem c10_score_invariant :
    (∀ s : GameState, Reachable s → 0 ≤ s.score ∧ (100 : ℤ) ∣ s.score) ∧
    (∀ (s : GameState) (inp : FrameInput), GEvent.rkey ∉ inp.events →
      s.score ≤ (frame s inp).score) ∧
    (∀ (pv : ℕ → ℚ × ℚ × ℚ) (ls : List Laser) (es : List Enemy) (sc : ℤ)
        (ps : List Particle) (pk : ℕ),
      ∃ n : ℕ, (passA pv ls es sc ps pk).score = sc + 100 * n) ∧
    (∀ s : GameState, s.game_over = true → (procEvent s GEvent.rkey).score = 0) := by
  refine ⟨?_, ?_, ?_, ?_⟩
  · intro s hs
    induction hs with
    | start => exact ⟨le_refl 0, dvd_zero 100⟩
    | step s0 inp _hreach _hvalid ih => exact frame_score_inv s0 inp ih
  · intro s inp hne
    exact frame_score_mono s inp hne
  · intro pv ls es sc ps pk
    exact passA_score_ex pv ls es sc ps pk
  · intro s hgo
    unfold procEvent
    rw [if_pos hgo]

/-- Witness for C10 at the initial state and at a concrete restart. -/
theorem c10_score_invariant_witness :
    (0 ≤ initState.score ∧ (100 : ℤ) ∣ initState.score) ∧
    (procEvent goState GEvent.rkey).score = 0 :=
  ⟨c10_score_invariant.1 initState Reachable.start,
   c10_score_invariant.2.2.2 goState rfl⟩

end Wirestrike
